import Mathlib

/-!
Shallow embedding of the Artisan-Hosting MailServer (src/src/main.rs,
src/src/config.rs, src/src/email.rs) in Lean 4.

Timestamps are modelled as natural-number seconds; `Instant::duration_since`
saturates at zero, matching truncated `Nat` subtraction.  The external
`simple_comms` protocol library's status codes are modelled symbolically
(only their distinctness matters to the program); the OPTIMIZED flag bit
pattern is kept as a `Nat` parameter `optBits` since only equality and
bit-mask tests on it occur in the source.  The external mail transport
(`send_email` in src/src/email.rs, an SMTP call) is modelled as a function
parameter `send : String → String → Except String Unit` invoked with
`(subject, body)` exactly as the drain loop does; `truncate(create_hash e, 10)`
from the external dusa_collection_utils crate is modelled as a parameter
`hashFn : String → String`.
-/

namespace MailServer

/-- `artisan_middleware::notifications::Email`: the two fields the program
reads (`subject`, `body`), as used at main.rs lines 448-452. -/
structure Email where
  subject : String
  body : String
deriving DecidableEq, Repr

/-- `TimedEmail` (main.rs lines 40-44): a queue entry pairing the email with
its arrival time. -/
structure TimedEmail where
  email : Email
  received_at : Nat
deriving DecidableEq, Repr

/-- `ErrorEmail` (main.rs lines 46-52): an Error Ledger record. -/
structure ErrorEmail where
  hash : String
  subject : Option String
  occoured_at : Nat
deriving DecidableEq, Repr

/-- The `simple_comms` `ProtocolStatus` codes the program uses, modelled
symbolically. -/
inductive Status where
  | NONE
  | OK
  | ERROR
  | SIDEGRADE
deriving DecidableEq, Repr

/-- A server→client response frame: the status code and the `reserved`
header field (which carries the flags-upgrade hint on SIDEGRADE). -/
structure Resp where
  status : Status
  reserved : Nat
deriving DecidableEq, Repr

/-- Outcome of handling one inbound frame on the accept path: either the
handler reaches its `continue` (serving further connections) or it hits a
`panic!` — `send_err_tcp` (main.rs lines 494-508) unconditionally panics
after writing its ERROR frame, and the lock-timeout branch (main.rs lines
272-276) panics as well.  Both record the frames written before the panic,
the queue contents, and the event counter. -/
inductive HandlerOutcome where
  | cont (sent : List Resp) (queue : List TimedEmail) (events : Nat)
  | panicked (sent : List Resp) (queue : List TimedEmail) (events : Nat)
deriving DecidableEq, Repr

/-- Frames written to the client during handling. -/
def HandlerOutcome.sent : HandlerOutcome → List Resp
  | .cont s _ _ => s
  | .panicked s _ _ => s

/-- Message Queue contents after handling. -/
def HandlerOutcome.queue : HandlerOutcome → List TimedEmail
  | .cont _ q _ => q
  | .panicked _ q _ => q

/-- Event counter after handling. -/
def HandlerOutcome.events : HandlerOutcome → Nat
  | .cont _ _ e => e
  | .panicked _ _ e => e

/-- Whether handling ended in a `panic!`, terminating the process. -/
def HandlerOutcome.isPanic : HandlerOutcome → Bool
  | .cont _ _ _ => false
  | .panicked _ _ _ => true

/-- The connection-handling body of the accept branch (main.rs lines
210-307), for one inbound frame, when the execution flag is set.

* `decodeEmail` models `Email::from_json` (external artisan_middleware);
* `optBits` is `Flags::OPTIMIZED.bits()`;
* `parsed` is the result of `ProtocolMessage::<Stringy>::from_bytes`:
  `some (flags, payload)` on `Ok`, `none` on `Err`;
* `lockOk` is whether `emails.try_write_with_timeout(None)` succeeded;
* `queue` / `events` are the Message Queue and `state.event_counter`.

Branches, in source order:
* `from_bytes` error (lines 291-306): ERROR response, counter bumped,
  `continue`;
* `header.flags != Flags::OPTIMIZED.bits()` (lines 215-239): SIDEGRADE
  response with `reserved = OPTIMIZED`, counter bumped, `continue`;
* `Email::from_json` error (lines 244-258): `send_err_tcp` writes an ERROR
  frame and then panics (line 507), so the counter bump at line 254 is
  never reached;
* queue lock timeout (lines 266-276): `send_err_tcp` (ERROR frame, panic);
* success (lines 260-289): entry pushed, empty-OK frame sent, counter
  bumped. -/
def handleFrame (decodeEmail : String → Option Email) (optBits : Nat) (now : Nat)
    (parsed : Option (Nat × String)) (lockOk : Bool)
    (queue : List TimedEmail) (events : Nat) : HandlerOutcome :=
  match parsed with
  | none => .cont [⟨Status.ERROR, 0⟩] queue (events + 1)
  | some (flags, payload) =>
    if flags ≠ optBits then
      .cont [⟨Status.SIDEGRADE, optBits⟩] queue (events + 1)
    else
      match decodeEmail payload with
      | none => .panicked [⟨Status.ERROR, 0⟩] queue events
      | some email =>
        if lockOk then
          .cont [⟨Status.OK, 0⟩] (queue ++ [⟨email, now⟩]) (events + 1)
        else
          .panicked [⟨Status.ERROR, 0⟩] queue events

end MailServer

namespace MailServer

/-- C1: a frame with valid flags but an undecodable payload yields exactly
one ERROR response frame and leaves the Message Queue's length unchanged.
(The handler then panics inside `send_err_tcp`; the frame is written before
the panic, and the queue is never touched — see C2 for the panic itself.) -/
theorem C1_malformed_payload_error_queue_unchanged
    (decodeEmail : String → Option Email) (optBits now : Nat)
    (payload : String) (lockOk : Bool) (queue : List TimedEmail) (events : Nat)
    (hdec : decodeEmail payload = none) :
    (handleFrame decodeEmail optBits now (some (optBits, payload)) lockOk queue events).sent
        = [⟨Status.ERROR, 0⟩] ∧
    (handleFrame decodeEmail optBits now (some (optBits, payload)) lockOk queue events).queue.length
        = queue.length := by
  simp [handleFrame, hdec, HandlerOutcome.sent, HandlerOutcome.queue]

theorem C1_malformed_payload_error_queue_unchanged_witness :
    (handleFrame (fun _ => none) 4 0 (some (4, "x")) true [] 0).sent
        = [⟨Status.ERROR, 0⟩] ∧
    (handleFrame (fun _ => none) 4 0 (some (4, "x")) true [] 0).queue.length
        = ([] : List TimedEmail).length :=
  C1_malformed_payload_error_queue_unchanged (fun _ => none) 4 0 "x" true [] 0 rfl

/-- C2 (code bug): the claim says a Message Queue lock timeout on the
ingestion path makes the handler reply ERROR and continue serving, and that
no ingestion/drain error terminates the process.  At this concrete input —
valid flags, decodable payload, lock timed out — the code writes the ERROR
frame and then hits `panic!` (`send_err_tcp` panics at main.rs line 507, and
the caller panics at line 275), terminating the process. -/
theorem C2_lock_timeout_panics :
    handleFrame (fun _ => some ⟨"s", "b"⟩) 4 7 (some (4, "x")) false
        [] 0
      = .panicked [⟨Status.ERROR, 0⟩] [] 0 ∧
    (handleFrame (fun _ => some ⟨"s", "b"⟩) 4 7 (some (4, "x")) false
        [] 0).isPanic = true := by
  constructor <;> rfl

/-- C7: an inbound frame whose header flags lack the OPTIMIZED bit gets a
single SIDEGRADE response whose `reserved` field carries the OPTIMIZED flag
bits; the Message Queue is untouched and the event counter is incremented
(main.rs lines 215-239). -/
theorem C7_missing_optimized_sidegrade
    (decodeEmail : String → Option Email) (optBits flags now : Nat)
    (payload : String) (lockOk : Bool) (queue : List TimedEmail) (events : Nat)
    (hflags : flags &&& optBits ≠ optBits) :
    handleFrame decodeEmail optBits now (some (flags, payload)) lockOk queue events
      = .cont [⟨Status.SIDEGRADE, optBits⟩] queue (events + 1) := by
  have hne : flags ≠ optBits := by
    intro h
    exact hflags (by simp [h])
  simp [handleFrame, hne]

theorem C7_missing_optimized_sidegrade_witness :
    handleFrame (fun _ => none) 4 0 (some (1, "x")) true [] 5
      = .cont [⟨Status.SIDEGRADE, 4⟩] [] 6 :=
  C7_missing_optimized_sidegrade (fun _ => none) 4 1 0 "x" true [] 5 (by decide)

/-- C10: acceptance requires flags to equal the OPTIMIZED pattern exactly:
a frame whose flags include the OPTIMIZED bit together with any additional
bit is still answered with SIDEGRADE / `reserved = OPTIMIZED` and nothing is
enqueued, because the check at main.rs line 215 is an equality test on the
whole flag word. -/
theorem C10_extra_bits_still_sidegrade
    (decodeEmail : String → Option Email) (optBits flags now : Nat)
    (payload : String) (lockOk : Bool) (queue : List TimedEmail) (events : Nat)
    (hhas : flags &&& optBits = optBits) (hne : flags ≠ optBits) :
    handleFrame decodeEmail optBits now (some (flags, payload)) lockOk queue events
      = .cont [⟨Status.SIDEGRADE, optBits⟩] queue (events + 1) := by
  simp [handleFrame, hne]

theorem C10_extra_bits_still_sidegrade_witness :
    handleFrame (fun _ => some ⟨"s", "b"⟩) 4 0 (some (5, "x")) true [] 0
      = .cont [⟨Status.SIDEGRADE, 4⟩] [] 1 :=
  C10_extra_bits_still_sidegrade (fun _ => some ⟨"s", "b"⟩) 4 5 0 "x" true [] 0
    (by decide) (by decide)

end MailServer

namespace MailServer

/-- Whether a queue entry has exceeded its 300-second TTL at `now`
(main.rs line 440: `current_time.duration_since(received_at) >
Duration::from_secs(300)`; `duration_since` saturates at zero, as does
`Nat` subtraction). -/
def expiredB (now : Nat) (e : TimedEmail) : Bool :=
  decide (300 < now - e.received_at)

/-- A non-expired (eligible) entry. -/
def liveB (now : Nat) (e : TimedEmail) : Bool :=
  ! expiredB now e

/-- Whether the transport call for this entry fails. -/
def failsB (send : String → String → Except String Unit) (e : TimedEmail) : Bool :=
  match send e.email.subject e.email.body with
  | .ok _ => false
  | .error _ => true

/-- Entries the tick's scan keeps in the queue: non-expired entries whose
dispatch failed (main.rs lines 462-474). -/
def keepB (send : String → String → Except String Unit) (now : Nat)
    (e : TimedEmail) : Bool :=
  liveB now e && failsB send e

/-- The Error Ledger record a failed dispatch appends (main.rs lines
468-472): `{ truncate(create_hash(error_text), 10), Some(error_text),
Instant::now() }`.  The `.ok` case is never used on kept entries. -/
def recOf (send : String → String → Except String Unit)
    (hashFn : String → String) (now : Nat) (e : TimedEmail) : ErrorEmail :=
  match send e.email.subject e.email.body with
  | .ok _ => ⟨hashFn "", none, now⟩
  | .error m => ⟨hashFn m, some m, now⟩

/-- Result of one drain tick: the Message Queue, the Error Ledger, the
entries passed to the transport (in call order), and `iteration_count`. -/
structure DrainResult where
  queue : List TimedEmail
  errors : List ErrorEmail
  attempts : List TimedEmail
  processed : Nat
deriving DecidableEq, Repr

/-- The drain loop's scan (main.rs lines 434-478): walk the queue while
budget remains, removing expired entries, removing successfully dispatched
entries, and keeping failed entries while appending an error record.  The
in-place `remove(i)` / `i += 1` scan is modelled with the processed-prefix of
kept (failed) entries accumulated in reverse in `kept`; every step consumes
one unit of budget (`iteration_count`) and one entry of `rest`. -/
def drainGo (send : String → String → Except String Unit)
    (hashFn : String → String) (now : Nat) :
    Nat → List TimedEmail → List TimedEmail → List ErrorEmail →
      List TimedEmail → Nat → DrainResult
  | _, [], kept, errs, att, cnt => ⟨kept.reverse, errs, att, cnt⟩
  | 0, rest, kept, errs, att, cnt => ⟨kept.reverse ++ rest, errs, att, cnt⟩
  | budget + 1, e :: rest, kept, errs, att, cnt =>
    if 300 < now - e.received_at then
      drainGo send hashFn now budget rest kept errs att (cnt + 1)
    else
      match send e.email.subject e.email.body with
      | .ok _ =>
        drainGo send hashFn now budget rest kept errs (att ++ [e]) (cnt + 1)
      | .error m =>
        drainGo send hashFn now budget rest (e :: kept)
          (errs ++ [⟨hashFn m, some m, now⟩]) (att ++ [e]) (cnt + 1)

/-- One drain tick (main.rs lines 402-489).  `errLockOk` models
`errors.try_write()` succeeding, `emailLockOk` models `emails.try_write()`
succeeding; the Error Ledger lock is attempted first.  If the ledger lock
fails the tick aborts untouched (lines 405-414); if the ledger lock succeeds
but the queue lock fails, one synthetic record is appended and the tick
aborts (lines 418-432); otherwise the scan runs with `rateLimit` budget. -/
def drainTick (errLockOk emailLockOk : Bool)
    (send : String → String → Except String Unit) (hashFn : String → String)
    (now rateLimit : Nat) (queue : List TimedEmail)
    (errs : List ErrorEmail) : DrainResult :=
  if errLockOk then
    if emailLockOk then
      drainGo send hashFn now rateLimit queue [] errs [] 0
    else
      ⟨queue, errs ++ [⟨hashFn "Failed to lock email array", none, now⟩], [], 0⟩
  else
    ⟨queue, errs, [], 0⟩

/-- A run of successive drain ticks at the given times (both locks acquired
each tick), threading the queue and ledger. -/
def multiDrain (send : String → String → Except String Unit)
    (hashFn : String → String) (rateLimit : Nat) :
    List Nat → List TimedEmail → List ErrorEmail → DrainResult
  | [], q, errs => ⟨q, errs, [], 0⟩
  | t :: ts, q, errs =>
    let r := drainTick true true send hashFn t rateLimit q errs
    multiDrain send hashFn rateLimit ts r.queue r.errors

/-- Closed form of the scan: it processes exactly the first
`min budget rest.length` entries; of those, the non-expired failing ones are
kept (in order) with one error record each, the non-expired ones are exactly
the transport attempts (in order), and the rest of the queue is appended
untouched. -/
theorem drainGo_eq (send : String → String → Except String Unit)
    (hashFn : String → String) (now : Nat) :
    ∀ (rest : List TimedEmail) (budget : Nat) (kept : List TimedEmail)
      (errs : List ErrorEmail) (att : List TimedEmail) (cnt : Nat),
      drainGo send hashFn now budget rest kept errs att cnt =
        ⟨kept.reverse ++ (rest.take budget).filter (keepB send now)
            ++ rest.drop budget,
         errs ++ ((rest.take budget).filter (keepB send now)).map
            (recOf send hashFn now),
         att ++ (rest.take budget).filter (liveB now),
         cnt + min budget rest.length⟩ := by
  intro rest
  induction rest with
  | nil =>
    intro budget kept errs att cnt
    simp [drainGo]
  | cons e rest ih =>
    intro budget kept errs att cnt
    match budget with
    | 0 => simp [drainGo]
    | budget + 1 =>
      by_cases hexp : 300 < now - e.received_at
      · have hkeep : keepB send now e = false := by
          simp [keepB, liveB, expiredB, hexp]
        have hlive : liveB now e = false := by
          simp [liveB, expiredB, hexp]
        simp [drainGo, hexp, ih, hkeep, hlive, Nat.succ_min_succ,
          List.filter_cons]
        all_goals omega
      · cases hs : send e.email.subject e.email.body with
        | ok u =>
          have hkeep : keepB send now e = false := by
            simp [keepB, failsB, hs]
          have hlive : liveB now e = true := by
            simp [liveB, expiredB, hexp]
          simp [drainGo, hexp, hs, ih, hkeep, hlive, Nat.succ_min_succ,
            List.filter_cons]
          all_goals omega
        | error m =>
          have hkeep : keepB send now e = true := by
            simp [keepB, failsB, liveB, expiredB, hs, hexp]
          have hlive : liveB now e = true := by
            simp [liveB, expiredB, hexp]
          have hrec : recOf send hashFn now e = ⟨hashFn m, some m, now⟩ := by
            simp [recOf, hs]
          simp [drainGo, hexp, hs, ih, hkeep, hlive, hrec,
            Nat.succ_min_succ, List.filter_cons]
          all_goals omega

end MailServer

namespace MailServer

/-- C3: with `rate_limit = N` and a queue holding more than N non-expired
entries, the tick processes exactly N entries — `iteration_count` ends at N,
each of the first N entries is either expired (removed), dispatched
(attempted and removed), or failed (attempted, kept, one record appended) —
and the remaining entries `q.drop N` are appended untouched. -/
theorem C3_rate_limit_exact
    (send : String → String → Except String Unit) (hashFn : String → String)
    (now N : Nat) (q : List TimedEmail) (errs : List ErrorEmail)
    (hmore : N < (q.filter (liveB now)).length) :
    drainTick true true send hashFn now N q errs =
      ⟨(q.take N).filter (keepB send now) ++ q.drop N,
       errs ++ ((q.take N).filter (keepB send now)).map (recOf send hashFn now),
       (q.take N).filter (liveB now),
       N⟩ := by
  have hlen : N < q.length :=
    lt_of_lt_of_le hmore (List.length_filter_le _ _)
  have hmin : min N q.length = N := by omega
  simp [drainTick, drainGo_eq, hmin]

theorem C3_rate_limit_exact_witness :
    1 < ([⟨⟨"a", "b"⟩, 0⟩, ⟨⟨"c", "d"⟩, 0⟩].filter (liveB 5)).length ∧
    drainTick true true (fun _ _ => Except.ok ()) (fun s => s) 5 1
        [⟨⟨"a", "b"⟩, 0⟩, ⟨⟨"c", "d"⟩, 0⟩] [] =
      ⟨([⟨⟨"a", "b"⟩, 0⟩, ⟨⟨"c", "d"⟩, 0⟩].take 1).filter
          (keepB (fun _ _ => Except.ok ()) 5) ++
          [⟨⟨"a", "b"⟩, 0⟩, ⟨⟨"c", "d"⟩, 0⟩].drop 1,
       [] ++ (([⟨⟨"a", "b"⟩, 0⟩, ⟨⟨"c", "d"⟩, 0⟩].take 1).filter
          (keepB (fun _ _ => Except.ok ()) 5)).map
          (recOf (fun _ _ => Except.ok ()) (fun s => s) 5),
       ([⟨⟨"a", "b"⟩, 0⟩, ⟨⟨"c", "d"⟩, 0⟩].take 1).filter (liveB 5),
       1⟩ :=
  ⟨by decide,
   C3_rate_limit_exact (fun _ _ => Except.ok ()) (fun s => s) 5 1
     [⟨⟨"a", "b"⟩, 0⟩, ⟨⟨"c", "d"⟩, 0⟩] [] (by decide)⟩

/-- C4 (counterexample): the claim says an entry older than 300 seconds is
removed on the next tick regardless of remaining rate-limit budget.  Here
`rate_limit = 1` and both entries are expired at time 301; the tick spends
its whole budget removing the first entry, and the second — though expired —
survives the tick. -/
theorem C4_counterexample :
    (drainTick true true (fun _ _ => Except.ok ()) (fun s => s) 301 1
        [⟨⟨"a", "b"⟩, 0⟩, ⟨⟨"c", "d"⟩, 0⟩] []).queue
      = [⟨⟨"c", "d"⟩, 0⟩] ∧
    300 < 301 - (⟨⟨"c", "d"⟩, 0⟩ : TimedEmail).received_at := by
  constructor
  · rfl
  · decide

/-- C4 (amended): an entry more than 300 seconds old at the tick's current
time is removed by the tick without the transport being invoked for it,
provided the scan reaches it — its position is below the rate-limit budget.
Expiry consumes budget like any other processed entry, so expired entries
beyond the budget wait for a later tick (see the counterexample).  The
second conjunct shows the transport is only invoked on non-expired
entries. -/
theorem C4_expired_removed_within_budget
    (send : String → String → Except String Unit) (hashFn : String → String)
    (now N j : Nat) (q : List TimedEmail) (errs : List ErrorEmail)
    (E : TimedEmail) (hj : q[j]? = some E) (hjN : j < N)
    (hexp : 300 < now - E.received_at) :
    (drainTick true true send hashFn now N q errs).queue.countP
        (fun x => decide (x = E))
      < q.countP (fun x => decide (x = E)) ∧
    (drainTick true true send hashFn now N q errs).attempts
      = (q.take N).filter (liveB now) := by
  have hqueue : (drainTick true true send hashFn now N q errs).queue
      = (q.take N).filter (keepB send now) ++ q.drop N := by
    simp [drainTick, drainGo_eq]
  have hatt : (drainTick true true send hashFn now N q errs).attempts
      = (q.take N).filter (liveB now) := by
    simp [drainTick, drainGo_eq]
  refine ⟨?_, hatt⟩
  rw [hqueue, List.countP_append]
  have hEtake : E ∈ q.take N := by
    have hget : (q.take N)[j]? = some E := by
      rw [List.getElem?_take]
      simp [hjN, hj]
    exact List.getElem?_mem hget
  have hfilter : ((q.take N).filter (keepB send now)).countP
      (fun x => decide (x = E)) = 0 := by
    rw [List.countP_eq_zero]
    intro a ha
    simp only [List.mem_filter] at ha
    simp only [decide_eq_true_eq]
    intro hae
    have : keepB send now E = true := hae ▸ ha.2
    simp [keepB, liveB, expiredB, hexp] at this
  have htake_pos : 0 < (q.take N).countP (fun x => decide (x = E)) := by
    rw [List.countP_pos]
    exact ⟨E, hEtake, by simp⟩
  have hsplit : q.countP (fun x => decide (x = E))
      = (q.take N).countP (fun x => decide (x = E))
        + (q.drop N).countP (fun x => decide (x = E)) := by
    conv_lhs => rw [← List.take_append_drop N q]
    exact List.countP_append _ _ _
  omega

theorem C4_expired_removed_within_budget_witness :
    (0 : Nat) < 1 ∧ 300 < 301 - (⟨⟨"a", "b"⟩, 0⟩ : TimedEmail).received_at ∧
    ((drainTick true true (fun _ _ => Except.ok ()) (fun s => s) 301 1
        [⟨⟨"a", "b"⟩, 0⟩] []).queue.countP
        (fun x => decide (x = (⟨⟨"a", "b"⟩, 0⟩ : TimedEmail)))
      < [(⟨⟨"a", "b"⟩, 0⟩ : TimedEmail)].countP
        (fun x => decide (x = (⟨⟨"a", "b"⟩, 0⟩ : TimedEmail))) ∧
    (drainTick true true (fun _ _ => Except.ok ()) (fun s => s) 301 1
        [⟨⟨"a", "b"⟩, 0⟩] []).attempts
      = ([(⟨⟨"a", "b"⟩, 0⟩ : TimedEmail)].take 1).filter (liveB 301)) :=
  ⟨by decide, by decide,
   C4_expired_removed_within_budget (fun _ _ => Except.ok ()) (fun s => s)
     301 1 0 [⟨⟨"a", "b"⟩, 0⟩] [] ⟨⟨"a", "b"⟩, 0⟩ rfl (by decide) (by decide)⟩

/-- C5: with entries A, B, C in the queue (in that arrival order), none of
them expired, a rate limit of at least 3 and a transport that succeeds on
every call, one tick invokes the transport for A, then B, then C, in that
order, and leaves the queue empty. -/
theorem C5_fifo_dispatch
    (send : String → String → Except String Unit) (hashFn : String → String)
    (now N : Nat) (a b c : TimedEmail) (errs : List ErrorEmail)
    (hN : 3 ≤ N) (hsend : ∀ s bo, send s bo = Except.ok ())
    (hlive : ∀ e ∈ [a, b, c], ¬ 300 < now - e.received_at) :
    (drainTick true true send hashFn now N [a, b, c] errs).attempts
        = [a, b, c] ∧
    (drainTick true true send hashFn now N [a, b, c] errs).queue = [] := by
  have htake : ([a, b, c] : List TimedEmail).take N = [a, b, c] :=
    List.take_of_length_le (by simp; omega)
  have hdrop : ([a, b, c] : List TimedEmail).drop N = [] :=
    List.drop_eq_nil_of_le (by simp; omega)
  have hliveF : ([a, b, c] : List TimedEmail).filter (liveB now) = [a, b, c] := by
    rw [List.filter_eq_self]
    intro e he
    have := hlive e he
    simp [liveB, expiredB, this]
  have hkeepF : ([a, b, c] : List TimedEmail).filter (keepB send now) = [] := by
    rw [List.filter_eq_nil]
    intro e _
    simp [keepB, failsB, hsend]
  constructor
  · simp [drainTick, drainGo_eq, htake, hliveF]
  · simp [drainTick, drainGo_eq, htake, hdrop, hkeepF]

theorem C5_fifo_dispatch_witness :
    (3 : Nat) ≤ 3 ∧
    ((drainTick true true (fun _ _ => Except.ok ()) (fun s => s) 5 3
        [⟨⟨"a", "1"⟩, 0⟩, ⟨⟨"b", "2"⟩, 1⟩, ⟨⟨"c", "3"⟩, 2⟩] []).attempts
      = [⟨⟨"a", "1"⟩, 0⟩, ⟨⟨"b", "2"⟩, 1⟩, ⟨⟨"c", "3"⟩, 2⟩] ∧
    (drainTick true true (fun _ _ => Except.ok ()) (fun s => s) 5 3
        [⟨⟨"a", "1"⟩, 0⟩, ⟨⟨"b", "2"⟩, 1⟩, ⟨⟨"c", "3"⟩, 2⟩] []).queue = []) :=
  ⟨by decide,
   C5_fifo_dispatch (fun _ _ => Except.ok ()) (fun s => s) 5 3
     ⟨⟨"a", "1"⟩, 0⟩ ⟨⟨"b", "2"⟩, 1⟩ ⟨⟨"c", "3"⟩, 2⟩ []
     (by decide) (fun _ _ => rfl) (by decide)⟩

/-- C8: the drain tick consults the Error Ledger lock first.  If the ledger
lock fails, the tick aborts with the queue and ledger untouched and nothing
recorded — whatever the queue lock would have returned (the first conjunct is
independent of `b`, capturing that the queue guard is only taken after the
ledger guard succeeds).  If the ledger lock succeeds and the queue lock
fails, the tick aborts after appending exactly one synthetic record noting
the lock failure (main.rs lines 404-432). -/
theorem C8_lock_order_and_aborts
    (send : String → String → Except String Unit) (hashFn : String → String)
    (now N : Nat) (q : List TimedEmail) (errs : List ErrorEmail) :
    (∀ b : Bool, drainTick false b send hashFn now N q errs
        = ⟨q, errs, [], 0⟩) ∧
    drainTick true false send hashFn now N q errs
      = ⟨q, errs ++ [⟨hashFn "Failed to lock email array", none, now⟩],
          [], 0⟩ := by
  constructor
  · intro b
    rfl
  · rfl

end MailServer

namespace MailServer

/-- Number of queue entries at least as old as `r₀`. -/
def oldCountP (r₀ : Nat) (q : List TimedEmail) : Nat :=
  q.countP (fun e => decide (e.received_at ≤ r₀))

/-- A tick never adds entries: its resulting queue is a sublist of the
queue it started from. -/
theorem drainTick_queue_sublist
    (send : String → String → Except String Unit) (hashFn : String → String)
    (now N : Nat) (q : List TimedEmail) (errs : List ErrorEmail) :
    ((drainTick true true send hashFn now N q errs).queue).Sublist q := by
  have hq : (drainTick true true send hashFn now N q errs).queue
      = (q.take N).filter (keepB send now) ++ q.drop N := by
    simp [drainTick, drainGo_eq]
  rw [hq]
  have hsub : ((q.take N).filter (keepB send now) ++ q.drop N).Sublist
      (q.take N ++ q.drop N) :=
    (List.filter_sublist _).append (List.Sublist.refl _)
  rwa [List.take_append_drop] at hsub

/-- Progress: while some entry at least as old as `r₀` remains and every
such entry is past its TTL at the tick's time, a tick with positive
rate-limit budget strictly reduces their number — the queue is in arrival
order, so the oldest entry sits at the head and is reached first. -/
theorem drainTick_oldCountP_lt
    (send : String → String → Except String Unit) (hashFn : String → String)
    (now N r₀ : Nat) (q : List TimedEmail) (errs : List ErrorEmail)
    (hpair : q.Pairwise fun x y => x.received_at ≤ y.received_at)
    (hexp : r₀ + 300 < now) (hN : 1 ≤ N) (hpos : 0 < oldCountP r₀ q) :
    oldCountP r₀ (drainTick true true send hashFn now N q errs).queue
      < oldCountP r₀ q := by
  have hq : (drainTick true true send hashFn now N q errs).queue
      = (q.take N).filter (keepB send now) ++ q.drop N := by
    simp [drainTick, drainGo_eq]
  rw [oldCountP, hq, List.countP_append]
  have hzero : ((q.take N).filter (keepB send now)).countP
      (fun e => decide (e.received_at ≤ r₀)) = 0 := by
    rw [List.countP_eq_zero]
    intro a ha
    simp only [List.mem_filter] at ha
    simp only [decide_eq_true_eq]
    intro hold
    have hkeep := ha.2
    have hlive : liveB now a = true := by
      simp [keepB] at hkeep
      exact hkeep.1
    simp only [liveB, expiredB, Bool.not_eq_eq_eq_not, Bool.not_true,
      decide_eq_false_iff_not, not_lt] at hlive
    omega
  have hne : q ≠ [] := by
    intro hnil
    rw [hnil] at hpos
    simp [oldCountP] at hpos
  obtain ⟨h, t, rfl⟩ := List.exists_cons_of_ne_nil hne
  obtain ⟨e, he, hoe⟩ := List.countP_pos.mp hpos
  simp only [decide_eq_true_eq] at hoe
  have hhold : h.received_at ≤ r₀ := by
    rcases List.mem_cons.mp he with rfl | het
    · exact hoe
    · exact le_trans ((List.pairwise_cons.mp hpair).1 e het) hoe
  have hhmem : h ∈ (h :: t).take N := by
    cases N with
    | zero => exact absurd hN (by decide)
    | succ M => simp [List.take_succ_cons]
  have hpos' : 0 < ((h :: t).take N).countP
      (fun e => decide (e.received_at ≤ r₀)) :=
    List.countP_pos.mpr ⟨h, hhmem, by simp [hhold]⟩
  have hsplit : (h :: t).countP (fun e => decide (e.received_at ≤ r₀))
      = ((h :: t).take N).countP (fun e => decide (e.received_at ≤ r₀))
        + ((h :: t).drop N).countP (fun e => decide (e.received_at ≤ r₀)) := by
    conv_lhs => rw [← List.take_append_drop N (h :: t)]
    exact List.countP_append _ _ _
  rw [oldCountP] at hpos ⊢
  omega

/-- Over a run of ticks whose times are all past the TTL of every entry at
least as old as `r₀`, with at least one tick per such entry, none of them
survives. -/
theorem multiDrain_oldCountP_zero
    (send : String → String → Except String Unit) (hashFn : String → String)
    (N r₀ : Nat) (hN : 1 ≤ N) :
    ∀ (ts : List Nat) (q : List TimedEmail) (errs : List ErrorEmail),
      q.Pairwise (fun x y => x.received_at ≤ y.received_at) →
      (∀ t ∈ ts, r₀ + 300 < t) →
      oldCountP r₀ q ≤ ts.length →
      oldCountP r₀ (multiDrain send hashFn N ts q errs).queue = 0 := by
  intro ts
  induction ts with
  | nil =>
    intro q errs _ _ hle
    simpa [multiDrain] using Nat.le_zero.mp (by simpa using hle)
  | cons t ts ih =>
    intro q errs hpair hts hle
    have hsub := drainTick_queue_sublist send hashFn t N q errs
    have hpair' := hpair.sublist hsub
    by_cases h0 : oldCountP r₀ q = 0
    · have hzero : oldCountP r₀
          (drainTick true true send hashFn t N q errs).queue = 0 := by
        have := hsub.countP_le (fun e => decide (e.received_at ≤ r₀))
        rw [oldCountP] at h0 ⊢
        omega
      simp only [multiDrain]
      exact ih _ _ hpair' (fun u hu => hts u (List.mem_cons_of_mem t hu))
        (by omega)
    · have hlt := drainTick_oldCountP_lt send hashFn t N r₀ q errs hpair
        (hts t (List.mem_cons_self t ts)) hN (Nat.pos_of_ne_zero h0)
      simp only [multiDrain]
      refine ih _ _ hpair' (fun u hu => hts u (List.mem_cons_of_mem t hu)) ?_
      simp only [List.length_cons] at hle
      omega

end MailServer

namespace MailServer

/-- C6: with a transport that fails every call (failure text given by
`msg`), a tick at time `now`:
* keeps every non-expired entry it reaches — a failed dispatch never removes
  the entry (first conjunct: the tick's queue retains exactly the
  non-expired prefix entries, in order, ahead of the untouched remainder);
* appends exactly one Error Ledger record per failed attempt, of the form
  `{hash of the error text, reason = the error text, timestamp = now}`
  (second conjunct);
* invokes the transport only on non-expired entries, so an entry is never
  retried past 300 seconds from its `received_at` (third conjunct);
and over any run of ticks all of whose times are beyond the entry's TTL,
with at least one tick per queue entry, the entry `E` has been removed by
TTL expiry (fourth conjunct). -/
theorem C6_retry_then_expire
    (send : String → String → Except String Unit)
    (msg : String → String → String) (hashFn : String → String)
    (now N : Nat) (q : List TimedEmail) (errs : List ErrorEmail)
    (E : TimedEmail) (ts : List Nat)
    (hsend : ∀ s bo, send s bo = Except.error (msg s bo))
    (hpair : q.Pairwise fun x y => x.received_at ≤ y.received_at)
    (hE : E ∈ q) (hts : ∀ t ∈ ts, E.received_at + 300 < t)
    (hN : 1 ≤ N) (hlen : q.length ≤ ts.length) :
    (drainTick true true send hashFn now N q errs).queue
        = (q.take N).filter (liveB now) ++ q.drop N ∧
    (drainTick true true send hashFn now N q errs).errors
        = errs ++ ((q.take N).filter (liveB now)).map
            (fun e => ⟨hashFn (msg e.email.subject e.email.body),
                       some (msg e.email.subject e.email.body), now⟩) ∧
    (drainTick true true send hashFn now N q errs).attempts
        = (q.take N).filter (liveB now) ∧
    E ∉ (multiDrain send hashFn N ts q errs).queue := by
  have hkl : ∀ a ∈ q.take N, keepB send now a = liveB now a := by
    intro a _
    simp [keepB, failsB, hsend]
  have hfilter : (q.take N).filter (keepB send now)
      = (q.take N).filter (liveB now) :=
    List.filter_congr hkl
  have hrec : ∀ a ∈ (q.take N).filter (liveB now),
      recOf send hashFn now a
        = ⟨hashFn (msg a.email.subject a.email.body),
           some (msg a.email.subject a.email.body), now⟩ := by
    intro a _
    simp [recOf, hsend]
  refine ⟨?_, ?_, ?_, ?_⟩
  · simp [drainTick, drainGo_eq, hfilter]
  · rw [show (drainTick true true send hashFn now N q errs).errors
        = errs ++ ((q.take N).filter (keepB send now)).map
            (recOf send hashFn now) by simp [drainTick, drainGo_eq]]
    rw [hfilter, List.map_congr_left hrec]
  · simp [drainTick, drainGo_eq]
  · have hcount : oldCountP E.received_at q ≤ ts.length :=
      le_trans (List.countP_le_length _) hlen
    have hzero := multiDrain_oldCountP_zero send hashFn N E.received_at hN
      ts q errs hpair hts hcount
    intro hmem
    have : 0 < oldCountP E.received_at
        (multiDrain send hashFn N ts q errs).queue :=
      List.countP_pos.mpr ⟨E, hmem, by simp⟩
    omega

theorem C6_retry_then_expire_witness :
    ([⟨⟨"s", "b"⟩, 0⟩] : List TimedEmail).length ≤ [400].length ∧ (1 : Nat) ≤ 1 ∧
    ((drainTick true true (fun _ _ => Except.error "boom") (fun s => s) 10 1
        [⟨⟨"s", "b"⟩, 0⟩] []).queue
      = (([⟨⟨"s", "b"⟩, 0⟩] : List TimedEmail).take 1).filter (liveB 10)
          ++ ([⟨⟨"s", "b"⟩, 0⟩] : List TimedEmail).drop 1 ∧
    (drainTick true true (fun _ _ => Except.error "boom") (fun s => s) 10 1
        [⟨⟨"s", "b"⟩, 0⟩] []).errors
      = [] ++ ((([⟨⟨"s", "b"⟩, 0⟩] : List TimedEmail).take 1).filter
          (liveB 10)).map
          (fun e => ⟨(fun s => s) ((fun _ _ => "boom") e.email.subject e.email.body),
                     some ((fun _ _ => "boom") e.email.subject e.email.body), 10⟩) ∧
    (drainTick true true (fun _ _ => Except.error "boom") (fun s => s) 10 1
        [⟨⟨"s", "b"⟩, 0⟩] []).attempts
      = (([⟨⟨"s", "b"⟩, 0⟩] : List TimedEmail).take 1).filter (liveB 10) ∧
    (⟨⟨"s", "b"⟩, 0⟩ : TimedEmail) ∉
      (multiDrain (fun _ _ => Except.error "boom") (fun s => s) 1 [400]
        [⟨⟨"s", "b"⟩, 0⟩] []).queue) :=
  ⟨by decide, by decide,
   C6_retry_then_expire (fun _ _ => Except.error "boom") (fun _ _ => "boom")
     (fun s => s) 10 1 [⟨⟨"s", "b"⟩, 0⟩] [] ⟨⟨"s", "b"⟩, 0⟩ [400]
     (fun _ _ => rfl) (by simp) (by simp) (by decide) (by decide) (by decide)⟩

end MailServer

namespace MailServer

/-- The `dusa_collection_utils` log levels the program mentions, modelled
symbolically. -/
inductive LogLevel where
  | Trace
  | Debug
  | Info
  | Warn
  | Error
deriving DecidableEq, Repr

/-- The `artisan_middleware` configuration (`artisan_middleware::config::
AppConfig`): the fields the reload branch reads or writes (main.rs lines
329-343); version bookkeeping is not modelled, as no claim mentions it. -/
structure MWConfig where
  git : Option String
  database : Option String
  app_name : String
  debug_mode : Bool
  log_level : LogLevel
deriving DecidableEq, Repr

/-- The persisted `AppState` (`artisan_middleware::state_persistence::
AppState`): the fields the reload branch reads or writes (main.rs lines
346-388); the `version` field is not modelled. -/
structure AppState where
  name : String
  data : String
  last_updated : Nat
  event_counter : Nat
  is_active : Bool
  error_log : List String
  config : MWConfig
  system_application : Bool
deriving DecidableEq, Repr

/-- `SmtpConfig` (config.rs lines 12-20).  `to_addr` and `from_addr` render
the source's `to` and `from` fields, which are keywords in Lean. -/
structure SmtpConfig where
  username : String
  password : String
  server : String
  port : Nat
  to_addr : String
  from_addr : String
deriving DecidableEq, Repr

/-- `AppSettings` (config.rs lines 22-26). -/
structure AppSettings where
  loop_interval_seconds : Nat
  rate_limit : Nat
deriving DecidableEq, Repr

/-- `AppConfig` (config.rs lines 6-10): the application configuration read
by `load_app_config` from the `Config` file — the spec's "Configuration"
collaborator (smtp.* and app.*). -/
structure AppConfig where
  smtp : SmtpConfig
  app : AppSettings
deriving DecidableEq, Repr

/-- The crate name baked in via `env!("CARGO_PKG_NAME")`; its exact value
is immaterial to every claim. -/
def CARGO_PKG_NAME : String := "mail_server"

/-- The adjustments the reload branch applies to a freshly loaded
middleware config (main.rs lines 330-336): drop `git` and `database`, force
`app_name` to the crate name. -/
def adjustedMw (mw : MWConfig) : MWConfig :=
  { mw with git := none, database := none, app_name := CARGO_PKG_NAME }

/-- The ServiceState the reload branch persists (main.rs lines 346-390):
a previously persisted state, if one loads, with `is_active`, `data`,
`last_updated`, `error_log` and the config's `debug_mode` / `log_level`
forced to known values; otherwise a fresh state. -/
def reloadedState (mw : MWConfig) (persisted : Option AppState)
    (now : Nat) : AppState :=
  match persisted with
  | some s =>
    { s with
      is_active := false
      data := "Initializing"
      last_updated := now
      error_log := []
      config := { s.config with
        debug_mode := mw.debug_mode
        log_level := mw.log_level } }
  | none =>
    { name := CARGO_PKG_NAME
      data := "Initializing"
      last_updated := now
      event_counter := 0
      is_active := false
      error_log := []
      config := { mw with debug_mode := true }
      system_application := true }

/-- What the service is left with after the reload branch returns. -/
structure ReloadOutcome where
  grace_secs : Nat
  queue : List TimedEmail
  persisted_state : AppState
  execution : Bool
  app_config : AppConfig
  mw_config : MWConfig
deriving DecidableEq, Repr

/-- The reload branch (main.rs lines 313-393): clear the execution flag,
sleep the 2-second grace period, persist the old state, clear the Message
Queue (the lock `unwrap` at line 323 panics on failure — `lockOk`), re-read
the middleware configuration (`artisan_middleware::config::AppConfig::new()`,
panic on failure — `freshMw = none`), reload-or-initialize the persisted
ServiceState, persist it, and set the execution flag true.

`freshApp` models the current contents of the application configuration's
source of truth (the `Config` file read by `load_app_config`): the branch
never consults it — `load_app_config` runs only at startup, and the drain
timer keeps using the startup `app_config` binding (main.rs line 402) —
so the result's `app_config` is the startup value `startupApp`.  The
reloaded state is written to disk; the outer in-memory `state` binding is
shadowed, not replaced (the inner `let mut state` at line 346 scopes to the
branch). -/
def reloadBranch (freshMw : Option MWConfig) (freshApp : AppConfig)
    (persisted : Option AppState) (lockOk : Bool) (now : Nat)
    (startupApp : AppConfig) (q : List TimedEmail) : Option ReloadOutcome :=
  if lockOk then
    match freshMw with
    | none => none
    | some mw0 =>
      some ⟨2, [], reloadedState (adjustedMw mw0) persisted now, true,
            startupApp, adjustedMw mw0⟩
  else
    none

/-- A concrete SMTP block. -/
def smtp0 : SmtpConfig := ⟨"u", "p", "s", 25, "to", "from"⟩

/-- Startup application configuration: rate limit 5. -/
def appRate5 : AppConfig := ⟨smtp0, ⟨60, 5⟩⟩

/-- The configuration file's contents at reload time: rate limit 7. -/
def appRate7 : AppConfig := ⟨smtp0, ⟨60, 7⟩⟩

/-- A middleware config as loaded at reload time. -/
def mwFresh : MWConfig := ⟨none, none, "x", false, LogLevel.Info⟩

/-- C9 (counterexample): the claim says every reload re-reads "the
configuration" from its source of truth.  The spec's Configuration
collaborator is `load_app_config`'s smtp/app config (config.rs), but the
reload branch never calls `load_app_config`: with the startup config at
rate limit 5 and the configuration file now holding rate limit 7, the
service still runs on rate limit 5 after a successful reload (main.rs line
402 uses the startup `app_config` binding). -/
theorem C9_counterexample :
    ((reloadBranch (some mwFresh) appRate7 none true 0 appRate5
        [⟨⟨"s", "b"⟩, 0⟩]).map (fun r => r.app_config)) = some appRate5 ∧
    appRate5 ≠ appRate7 := by
  constructor
  · rfl
  · decide

/-- C9 (amended): triggering reload with pending entries — when the
middleware config load and the queue lock succeed — results, after the
2-second grace period, in an empty Message Queue, a reloaded/reset persisted
ServiceState, the execution flag set true again, and the middleware state
configuration re-read; the application configuration (smtp/app) read by
`load_app_config` at startup is not re-read, and the service keeps using
the startup value. -/
theorem C9_reload_clears_queue
    (freshMw : MWConfig) (freshApp : AppConfig) (persisted : Option AppState)
    (now : Nat) (startupApp : AppConfig) (q : List TimedEmail) :
    ∃ r, reloadBranch (some freshMw) freshApp persisted true now startupApp q
        = some r ∧
      r.queue = [] ∧
      r.execution = true ∧
      r.grace_secs = 2 ∧
      r.persisted_state = reloadedState (adjustedMw freshMw) persisted now ∧
      r.mw_config = adjustedMw freshMw ∧
      r.app_config = startupApp := by
  exact ⟨_, rfl, rfl, rfl, rfl, rfl, rfl, rfl⟩

end MailServer
